import Mathlib

/-!
Verification of the lead-qualification chatbot core
(apps/chatbot/services.py and apps/chatbot/views.py).

The Django models `ChatSession` and `ConversationContext` are embedded as
Lean structures carrying exactly the fields the core operations read or
write.  Optional text columns are `Option String`; Python truthiness of an
optional string (`if session.user_name:`) is the `truthy` predicate below
(`None` and the empty string are falsy).  Status, step and intent values
are the literal strings the source uses.
-/

/-- Python truthiness of an optional string: `None` and `""` are falsy. -/
def truthy : Option String → Bool
  | none => false
  | some s => !(s == "")

/-- Embedding of the `ChatSession` model fields the core reads or writes
(models.py, class ChatSession). -/
structure Session where
  user_name : Option String
  user_email : Option String
  user_phone : Option String
  company_name : Option String
  status : String
  is_qualified_lead : Bool
  total_messages : Nat
  deriving Repr, DecidableEq

/-- Embedding of the `ConversationContext` model fields the core reads or
writes (models.py, class ConversationContext). -/
structure Context where
  current_step : String
  has_name : Bool
  has_email : Bool
  has_company : Bool
  preferred_products : List String
  asked_for_demo : Bool
  asked_for_pricing : Bool
  deriving Repr, DecidableEq

/-- Lowercasing of a message as a character list
(embeds Python `message.lower()`). -/
def pyLower (s : String) : List Char :=
  s.data.map Char.toLower

/-- Strip leading and trailing whitespace
(embeds Python `str.strip()`). -/
def pyStrip (l : List Char) : List Char :=
  ((l.dropWhile Char.isWhitespace).reverse.dropWhile Char.isWhitespace).reverse

/-- Substring test: does `pat` occur inside `msg`
(embeds Python `pat in msg`)? -/
def containsPat (msg : List Char) (pat : String) : Bool :=
  msg.tails.any (fun t => pat.data.isPrefixOf t)

/-- ConversationFlowManager.CONVERSATION_STEPS (services.py lines 20-41):
step name, successor step, required info. -/
def CONVERSATION_STEPS : List (String × String × List String) :=
  [("greeting", "info_collection", []),
   ("info_collection", "product_discussion", ["name", "email"]),
   ("product_discussion", "qualification", []),
   ("qualification", "demo_booking", []),
   ("demo_booking", "completed", ["name", "email", "company"])]

/-- ConversationFlowManager.get_missing_info (services.py lines 43-55):
name and email are always required, company only once a demo was asked. -/
def get_missing_info (c : Context) : List String :=
  (if !c.has_name then ["name"] else []) ++
  (if !c.has_email then ["email"] else []) ++
  (if !c.has_company && c.asked_for_demo then ["company"] else [])

/-- ConversationFlowManager.get_next_step (services.py lines 62-69). -/
def get_next_step (current_step : String) (has_all_info : Bool) : String :=
  if current_step == "info_collection" && !has_all_info then
    "info_collection"
  else
    match (CONVERSATION_STEPS.find? (fun e => e.1 == current_step)) with
    | some e => e.2.1
    | none => current_step

/-- Flag updates of `_update_conversation_context` (views.py lines 352-356):
set asked_for_demo / asked_for_pricing from the detected intent. -/
def ucc_flags (c : Context) (intent : String) : Context :=
  let c1 := if intent == "demo_request" then { c with asked_for_demo := true } else c
  if intent == "pricing_inquiry" then { c1 with asked_for_pricing := true } else c1

/-- Product-interest updates of `_update_conversation_context`
(views.py lines 358-370).  Python stores `list(set(existing) | products)`,
whose iteration order is abstracted here to a deterministic duplicate-free
union with the same membership. -/
def ucc_products (c : Context) (ml : List Char) : Context :=
  let products :=
    (if containsPat ml "argo" then ["ARGO"] else []) ++
    (if containsPat ml "mark" then ["MARK"] else []) ++
    (if containsPat ml "consuelo" then ["CONSUELO"] else [])
  if products.isEmpty then c
  else { c with preferred_products := (c.preferred_products ++ products).dedup }

/-- Step assignment chain of `_update_conversation_context`
(views.py lines 372-381) as a function of the missing-info emptiness, the
demo flag and the current step. -/
def step_next (missingEmpty demo : Bool) (s : String) : String :=
  if !missingEmpty && s == "greeting" then "info_collection"
  else if missingEmpty && s == "info_collection" then "product_discussion"
  else if demo && missingEmpty then "demo_booking"
  else s

/-- Step update of `_update_conversation_context` (views.py lines 372-382). -/
def ucc_step (c : Context) : Context :=
  { c with current_step :=
      step_next (get_missing_info c).isEmpty c.asked_for_demo c.current_step }

/-- `_update_conversation_context` (views.py lines 345-382): flag updates,
product-interest tracking, then the step update, in source order. -/
def update_conversation_context (c : Context) (intent : String) (message : String) : Context :=
  ucc_step (ucc_products (ucc_flags c intent) (pyLower message))

/-- IntentDetector.INTENT_PATTERNS (services.py lines 75-102), in declaration
order. -/
def INTENT_PATTERNS : List (String × List String) :=
  [("demo_request",
    ["demo", "demonstration", "show me", "can i see",
     "book a call", "schedule", "meeting", "book", "calendly",
     "appointment", "talk to", "speak with"]),
   ("pricing_inquiry",
    ["price", "cost", "pricing", "how much", "expensive",
     "payment", "subscription", "plan", "fee"]),
   ("product_inquiry",
    ["argo", "mark", "consuelo", "feature", "what does",
     "how does", "capability", "can it", "tell me about"]),
   ("technical_question",
    ["integrate", "api", "technical", "setup", "implementation",
     "how long", "install", "deploy"]),
   ("general_inquiry",
    ["what is", "explain", "help", "hello", "hi"]),
   ("provide_info",
    ["my name is", "i am", "email", "@", "company", "work at", "from"]),
   ("confirmation",
    ["yes", "sure", "ok", "yeah", "yep", "correct", "right", "exactly"])]

/-- Match score of one intent: the number of its patterns occurring in the
lowercased message (services.py line 116). -/
def pattern_score (ml : List Char) (pats : List String) : Nat :=
  (pats.filter (fun p => containsPat ml p)).length

/-- Scores of all declared intents on a message, in declaration order
(services.py lines 113-118 before the positivity filter). -/
def declared_scores (message : String) : List (String × Nat) :=
  INTENT_PATTERNS.map (fun ip => (ip.1, pattern_score (pyStrip (pyLower message)) ip.2))

/-- Python `max(xs, key=...)` over a nonempty score list: the accumulator is
replaced only on a strictly larger score, so the first maximal element wins. -/
def py_max : (String × Nat) → List (String × Nat) → (String × Nat)
  | acc, [] => acc
  | acc, x :: xs => py_max (if acc.2 < x.2 then x else acc) xs

/-- IntentDetector.detect_intent (services.py lines 104-130): keep intents
with positive score in declaration order, take the maximum (first wins on
ties), confidence is min(score / 3, 1); with no match, general_inquiry at
confidence 0.5.  Python float arithmetic is embedded as exact rationals. -/
def detect_intent (message : String) : String × ℚ :=
  let intent_scores := (declared_scores message).filter (fun x => decide (0 < x.2))
  match intent_scores with
  | [] => ("general_inquiry", 1/2)
  | s :: rest =>
    let best := py_max s rest
    (best.1, min ((best.2 : ℚ) / 3) 1)

/-- The maximal declared-intent score of a message (the value Python's max
selects when any intent matches). -/
def max_score (message : String) : Nat :=
  (declared_scores message).foldr (fun x r => max x.2 r) 0

/-- Result of IntentDetector.extract_user_info (services.py lines 132-183).
The regex engine itself is outside the embedding; the chat-path operations
below are parameterized by the extracted triple, which covers every value
the extractor can produce. -/
structure Extracted where
  name : Option String
  email : Option String
  company : Option String
  deriving Repr, DecidableEq

/-- `_extract_and_update_user_info` (views.py lines 317-342): each extracted
field is merged only when it is truthy and the session field is still falsy
(first-write-wins), and the matching collected flag is set with it. -/
def extract_and_update_user_info (ext : Extracted) (s : Session) (c : Context) :
    Session × Context :=
  let p1 :=
    if truthy ext.name && !truthy s.user_name then
      ({ s with user_name := ext.name }, { c with has_name := true })
    else (s, c)
  let p2 :=
    if truthy ext.email && !truthy p1.1.user_email then
      ({ p1.1 with user_email := ext.email }, { p1.2 with has_email := true })
    else p1
  if truthy ext.company && !truthy p2.1.company_name then
    ({ p2.1 with company_name := ext.company }, { p2.2 with has_company := true })
  else p2

/-- Session creation branch of `_get_or_create_session`
(views.py lines 296-314): the optional identity fields come from the
validated chat request (each may be absent, blank or non-blank), the new
context starts at the greeting step and seeds the collected flags from the
truthiness of the seeded session fields. -/
def create_session (user_name user_email company_name : Option String) :
    Session × Context :=
  let s : Session :=
    { user_name := user_name, user_email := user_email, user_phone := none,
      company_name := company_name, status := "active",
      is_qualified_lead := false, total_messages := 0 }
  let c : Context :=
    { current_step := "greeting",
      has_name := truthy s.user_name,
      has_email := truthy s.user_email,
      has_company := truthy s.company_name,
      preferred_products := [], asked_for_demo := false,
      asked_for_pricing := false }
  (s, c)

/-- ConversationAnalyzer.is_qualified_lead (services.py lines 452-463):
a lead qualifies when at least 3 of the 4 criteria hold. -/
def is_qualified_lead (s : Session) (c : Context) : Bool :=
  let criteria : List Bool :=
    [c.has_name && c.has_email,
     decide (0 < c.preferred_products.length),
     decide (3 ≤ s.total_messages),
     c.asked_for_demo || c.asked_for_pricing]
  decide (3 ≤ (criteria.map (fun b => if b then 1 else 0)).sum)

/-- Validated body of the explicit update endpoint
(UserInfoUpdateSerializer, serializers.py lines 183-190): every field is
optional and may be blank. -/
structure UserInfoUpdate where
  user_name : Option String
  user_email : Option String
  user_phone : Option String
  company_name : Option String
  deriving Repr, DecidableEq

/-- Body of the `update_user_info` view for a resolved session
(views.py lines 187-204): each supplied field always overwrites the session
field and sets the matching collected flag true (phone has no flag). -/
def update_user_info (u : UserInfoUpdate) (s : Session) (c : Context) :
    Session × Context :=
  let p1 :=
    match u.user_name with
    | some v => ({ s with user_name := some v }, { c with has_name := true })
    | none => (s, c)
  let p2 :=
    match u.user_email with
    | some v => ({ p1.1 with user_email := some v }, { p1.2 with has_email := true })
    | none => p1
  let p3 :=
    match u.user_phone with
    | some v => ({ p2.1 with user_phone := some v }, p2.2)
    | none => p2
  match u.company_name with
  | some v => ({ p3.1 with company_name := some v }, { p3.2 with has_company := true })
  | none => p3

/-- ChatSession.increment_message_count (models.py lines 121-124). -/
def increment_message_count (s : Session) : Session :=
  { s with total_messages := s.total_messages + 1 }

/-- State mutation of one accepted chat request on a resolved session
(views.py lines 79-124): detect the intent, merge the extracted info,
update the context, bump the message counter, then promote the session when
the qualification predicate holds.  `ext` stands for the value of
`IntentDetector.extract_user_info(message)`. -/
def chat_step (message : String) (ext : Extracted) (s : Session) (c : Context) :
    Session × Context :=
  let intent := (detect_intent message).1
  let p1 := extract_and_update_user_info ext s c
  let c2 := update_conversation_context p1.2 intent message
  let s2 := increment_message_count p1.1
  if is_qualified_lead s2 c2 then
    ({ s2 with is_qualified_lead := true, status := "qualified" }, c2)
  else (s2, c2)

/-- `reset_session` for a resolved session (views.py lines 262-264):
the status is unconditionally set to archived. -/
def reset_session (s : Session) (c : Context) : Session × Context :=
  ({ s with status := "archived" }, c)

/-- One core operation against an existing session, as dispatched by the
chatbot views: a chat message, an explicit info update, or a reset. -/
inductive CoreOp where
  | chat (message : String) (ext : Extracted)
  | updateInfo (u : UserInfoUpdate)
  | reset
  deriving Repr

/-- Apply one core operation to the session/context pair. -/
def apply_op (st : Session × Context) : CoreOp → Session × Context
  | CoreOp.chat message ext => chat_step message ext st.1 st.2
  | CoreOp.updateInfo u => update_user_info u st.1 st.2
  | CoreOp.reset => reset_session st.1 st.2

/-- Fixed demo-booking configuration (services.py lines 13-14). -/
def DEMO_BOOKING_LINK : String :=
  "https://calendly.com/l-kush-ofiservices/sia"

/-- The prompt line instructing the model to emit the booking link at once
(views of build_context_enhanced_prompt, services.py line 345). -/
def demo_link_line : String :=
  "[🎯 DEMO REQUESTED - USER HAS ALL INFO - PROVIDE LINK: " ++ DEMO_BOOKING_LINK ++ "]"

/-- The prompt line instructing the model to ask for the company first
(services.py line 347). -/
def demo_need_company_line : String :=
  "[🎯 DEMO REQUESTED - Need company name, then provide link]"

/-- Known-facts line of the enriched prompt (services.py lines 320-329). -/
def known_info_line (s : Session) : List String :=
  let known :=
    (if truthy s.user_name then ["Name: " ++ (s.user_name.getD "")] else []) ++
    (if truthy s.user_email then ["Email: " ++ (s.user_email.getD "")] else []) ++
    (if truthy s.company_name then ["Company: " ++ (s.company_name.getD "")] else [])
  if known.isEmpty then []
  else ["[✓ Already collected: " ++ String.intercalate ", " known ++ "]"]

/-- Missing-info line of the enriched prompt (services.py lines 331-336). -/
def missing_info_line (c : Context) : List String :=
  let missing := get_missing_info c
  if missing.isEmpty then ["[✓ All basic info collected]"]
  else ["[✗ Still need: " ++ String.intercalate ", " missing ++ "]"]

/-- Interest line of the enriched prompt (services.py lines 338-340). -/
def interests_line (c : Context) : List String :=
  if c.preferred_products.isEmpty then []
  else ["[Interested in: " ++ String.intercalate ", " c.preferred_products ++ "]"]

/-- Demo-instruction line of the enriched prompt (services.py lines 342-347):
emitted only when a demo was asked, and chooses between the immediate-link
instruction and the ask-for-company instruction on the truthiness of the
session company name. -/
def demo_line (s : Session) (c : Context) : List String :=
  if c.asked_for_demo then
    if truthy s.company_name then [demo_link_line] else [demo_need_company_line]
  else []

/-- The context block of GeminiService.build_context_enhanced_prompt
(services.py lines 307-354), as the list of emitted lines in source order. -/
def build_context_parts (s : Session) (c : Context) : List String :=
  known_info_line s ++ missing_info_line c ++ interests_line c ++ demo_line s c

/-- GeminiService.build_context_enhanced_prompt (services.py lines 307-354):
the joined context block followed by the user message. -/
def build_context_enhanced_prompt (user_message : String) (s : Session) (c : Context) :
    String :=
  let parts := build_context_parts s c
  if parts.isEmpty then user_message
  else String.intercalate "\n" parts ++ "\n\nUser: " ++ user_message

/-- History selection of the chatbot view (views.py lines 94-97): the
session messages ordered by timestamp, capped to the first ten.  Messages
are abstracted to values listed in timestamp order. -/
def conversation_history (msgs : List Nat) : List Nat :=
  msgs.take 10

/-- History list handed to GeminiService.generate_response
(views.py line 104): the capped history without its final entry. -/
def history_for_backend (msgs : List Nat) : List Nat :=
  (conversation_history msgs).dropLast

/-- Modelled from the spec: the history the spec describes, namely the most
recent ten messages of the session excluding the just-created user message
(the final entry), in chronological order. -/
def spec_recent_history (msgs : List Nat) : List Nat :=
  (msgs.dropLast).drop (msgs.dropLast.length - 10)

/-- Repeated application of the per-message context update, one
(intent, message) pair per chat turn. -/
def apply_context_updates (c : Context) (l : List (String × String)) : Context :=
  l.foldl (fun acc im => update_conversation_context acc im.1 im.2) c

/-- Apply a sequence of core operations to a session/context pair. -/
def apply_ops (st : Session × Context) (l : List CoreOp) : Session × Context :=
  l.foldl apply_op st


@[simp] lemma ucc_flags_has_name (c : Context) (i : String) :
    (ucc_flags c i).has_name = c.has_name := by
  unfold ucc_flags; split <;> split <;> rfl

@[simp] lemma ucc_flags_has_email (c : Context) (i : String) :
    (ucc_flags c i).has_email = c.has_email := by
  unfold ucc_flags; split <;> split <;> rfl

@[simp] lemma ucc_flags_has_company (c : Context) (i : String) :
    (ucc_flags c i).has_company = c.has_company := by
  unfold ucc_flags; split <;> split <;> rfl

@[simp] lemma ucc_flags_current_step (c : Context) (i : String) :
    (ucc_flags c i).current_step = c.current_step := by
  unfold ucc_flags; split <;> split <;> rfl

@[simp] lemma ucc_flags_demo (c : Context) (i : String) :
    (ucc_flags c i).asked_for_demo = (c.asked_for_demo || (i == "demo_request")) := by
  unfold ucc_flags; split <;> split <;> simp_all

@[simp] lemma ucc_products_has_name (c : Context) (ml : List Char) :
    (ucc_products c ml).has_name = c.has_name := by
  unfold ucc_products
  cases containsPat ml "argo" <;> cases containsPat ml "mark" <;>
    cases containsPat ml "consuelo" <;> rfl

@[simp] lemma ucc_products_has_email (c : Context) (ml : List Char) :
    (ucc_products c ml).has_email = c.has_email := by
  unfold ucc_products
  cases containsPat ml "argo" <;> cases containsPat ml "mark" <;>
    cases containsPat ml "consuelo" <;> rfl

@[simp] lemma ucc_products_has_company (c : Context) (ml : List Char) :
    (ucc_products c ml).has_company = c.has_company := by
  unfold ucc_products
  cases containsPat ml "argo" <;> cases containsPat ml "mark" <;>
    cases containsPat ml "consuelo" <;> rfl

@[simp] lemma ucc_products_current_step (c : Context) (ml : List Char) :
    (ucc_products c ml).current_step = c.current_step := by
  unfold ucc_products
  cases containsPat ml "argo" <;> cases containsPat ml "mark" <;>
    cases containsPat ml "consuelo" <;> rfl

@[simp] lemma ucc_products_demo (c : Context) (ml : List Char) :
    (ucc_products c ml).asked_for_demo = c.asked_for_demo := by
  unfold ucc_products
  cases containsPat ml "argo" <;> cases containsPat ml "mark" <;>
    cases containsPat ml "consuelo" <;> rfl

@[simp] lemma ucc_products_pricing (c : Context) (ml : List Char) :
    (ucc_products c ml).asked_for_pricing = c.asked_for_pricing := by
  unfold ucc_products
  cases containsPat ml "argo" <;> cases containsPat ml "mark" <;>
    cases containsPat ml "consuelo" <;> rfl

@[simp] lemma ucc_step_has_name (c : Context) : (ucc_step c).has_name = c.has_name := rfl

@[simp] lemma ucc_step_has_email (c : Context) : (ucc_step c).has_email = c.has_email := rfl

@[simp] lemma ucc_step_has_company (c : Context) : (ucc_step c).has_company = c.has_company := rfl

@[simp] lemma ucc_step_demo (c : Context) : (ucc_step c).asked_for_demo = c.asked_for_demo := rfl

@[simp] lemma ucc_step_pricing (c : Context) : (ucc_step c).asked_for_pricing = c.asked_for_pricing := rfl

/-- The missing-info list is empty exactly when name and email are known and
the company is known or no demo was asked. -/
@[simp] lemma missing_isEmpty (c : Context) :
    (get_missing_info c).isEmpty =
      (c.has_name && c.has_email && (c.has_company || !c.asked_for_demo)) := by
  unfold get_missing_info
  cases c.has_name <;> cases c.has_email <;> cases c.has_company <;>
    cases c.asked_for_demo <;> rfl

lemma update_conversation_context_step (c : Context) (i m : String) :
    (update_conversation_context c i m).current_step =
      step_next (c.has_name && c.has_email &&
                   (c.has_company || !(c.asked_for_demo || (i == "demo_request"))))
        (c.asked_for_demo || (i == "demo_request")) c.current_step := by
  unfold update_conversation_context ucc_step
  simp only [missing_isEmpty, ucc_products_has_name, ucc_products_has_email,
    ucc_products_has_company, ucc_products_demo, ucc_products_current_step,
    ucc_flags_has_name, ucc_flags_has_email, ucc_flags_has_company,
    ucc_flags_demo, ucc_flags_current_step]

lemma step_next_idem (me d : Bool) (s : String)
    (h : s = "info_collection" → me = true → d = true → False) :
    step_next me d (step_next me d s) = step_next me d s := by
  cases me <;> cases d <;>
    simp only [step_next, Bool.not_true, Bool.not_false, Bool.false_and,
      Bool.true_and, Bool.and_false, Bool.and_true, if_false, if_true,
      Bool.false_eq_true, beq_iff_eq] <;>
    split_ifs <;> simp_all

lemma updated_demo (c : Context) (i m : String) :
    (update_conversation_context c i m).asked_for_demo =
      (c.asked_for_demo || (i == "demo_request")) := by
  unfold update_conversation_context
  simp

lemma updated_has (c : Context) (i m : String) :
    (update_conversation_context c i m).has_name = c.has_name ∧
    (update_conversation_context c i m).has_email = c.has_email ∧
    (update_conversation_context c i m).has_company = c.has_company := by
  unfold update_conversation_context
  simp

/-- C1: the per-message step update is NOT idempotent.  Counterexample: a
context sitting at info_collection with name, email and company all
collected and a demo requested moves to product_discussion on one
application and on to demo_booking on a second application with the same
intent and unchanged facts. -/
theorem update_conversation_context_not_idempotent :
    ¬ ((update_conversation_context (update_conversation_context
        { current_step := "info_collection", has_name := true, has_email := true,
          has_company := true, preferred_products := [], asked_for_demo := true,
          asked_for_pricing := false } "general_inquiry" "ok") "general_inquiry" "ok").current_step
      = (update_conversation_context
        { current_step := "info_collection", has_name := true, has_email := true,
          has_company := true, preferred_products := [], asked_for_demo := true,
          asked_for_pricing := false } "general_inquiry" "ok").current_step) := by
  decide

/-- C1 (amended): the per-message step transition is idempotent for every
context and fixed intent EXCEPT in the single drift case the code contains:
a context at info_collection whose name, email and company are all collected
while a demo is (or is being) requested, which moves to product_discussion
and then to demo_booking. -/
theorem update_conversation_context_idem
    (c : Context) (i m : String)
    (h : ¬(c.current_step = "info_collection" ∧ c.has_name = true ∧ c.has_email = true ∧
           c.has_company = true ∧ (c.asked_for_demo = true ∨ i = "demo_request"))) :
    (update_conversation_context (update_conversation_context c i m) i m).current_step
      = (update_conversation_context c i m).current_step := by
  have hd := updated_demo c i m
  obtain ⟨h1, h2, h3⟩ := updated_has c i m
  rw [update_conversation_context_step (update_conversation_context c i m) i m,
      h1, h2, h3, hd, update_conversation_context_step c i m]
  have hor : ((c.asked_for_demo || (i == "demo_request")) || (i == "demo_request"))
      = (c.asked_for_demo || (i == "demo_request")) := by
    simp [Bool.or_assoc]
  rw [hor]
  apply step_next_idem
  intro hs hme hdm
  rw [hdm] at hme
  simp only [Bool.not_true, Bool.or_false, Bool.and_eq_true] at hme
  simp only [Bool.or_eq_true, beq_iff_eq] at hdm
  exact h ⟨hs, hme.1.1, hme.1.2, hme.2, hdm⟩

/-- C1 (witness for the amended theorem): a fresh greeting context with the
same intent twice keeps the same step. -/
theorem update_conversation_context_idem_witness :
    (update_conversation_context (update_conversation_context
      { current_step := "greeting", has_name := false, has_email := false,
        has_company := false, preferred_products := [], asked_for_demo := false,
        asked_for_pricing := false } "general_inquiry" "hello") "general_inquiry" "hello").current_step
    = (update_conversation_context
      { current_step := "greeting", has_name := false, has_email := false,
        has_company := false, preferred_products := [], asked_for_demo := false,
        asked_for_pricing := false } "general_inquiry" "hello").current_step :=
  update_conversation_context_idem _ "general_inquiry" "hello" (by decide)

/-- C8: ConversationAnalyzer.is_qualified_lead implements the weighted
policy: it returns true exactly when at least 3 of the 4 criteria (name and
email collected, at least one preferred product, at least 3 total messages,
demo or pricing asked) hold. -/
theorem is_qualified_lead_weighted (s : Session) (c : Context) :
    is_qualified_lead s c = true ↔
      (((c.has_name = true ∧ c.has_email = true) ∧ 0 < c.preferred_products.length ∧
          3 ≤ s.total_messages) ∨
       ((c.has_name = true ∧ c.has_email = true) ∧ 0 < c.preferred_products.length ∧
          (c.asked_for_demo = true ∨ c.asked_for_pricing = true)) ∨
       ((c.has_name = true ∧ c.has_email = true) ∧ 3 ≤ s.total_messages ∧
          (c.asked_for_demo = true ∨ c.asked_for_pricing = true)) ∨
       (0 < c.preferred_products.length ∧ 3 ≤ s.total_messages ∧
          (c.asked_for_demo = true ∨ c.asked_for_pricing = true))) := by
  unfold is_qualified_lead
  cases hn : c.has_name <;> cases he : c.has_email <;>
    cases hd : c.asked_for_demo <;> cases hp : c.asked_for_pricing <;>
    by_cases hl : 0 < c.preferred_products.length <;>
    by_cases hm : 3 ≤ s.total_messages <;>
    simp_all <;> split_ifs <;> omega

/-- Closed form of the chat-path extraction merge: each field is overwritten
only when the extracted value is truthy and the stored one is not, and the
collected flag is set with it. -/
lemma eaui_spec (e : Extracted) (s : Session) (c : Context) :
    extract_and_update_user_info e s c =
      ({ s with
          user_name := if truthy e.name && !truthy s.user_name then e.name else s.user_name,
          user_email := if truthy e.email && !truthy s.user_email then e.email else s.user_email,
          company_name := if truthy e.company && !truthy s.company_name then e.company
                          else s.company_name },
       { c with
          has_name := if truthy e.name && !truthy s.user_name then true else c.has_name,
          has_email := if truthy e.email && !truthy s.user_email then true else c.has_email,
          has_company := if truthy e.company && !truthy s.company_name then true
                         else c.has_company }) := by
  unfold extract_and_update_user_info
  by_cases h1 : truthy e.name && !truthy s.user_name <;>
    by_cases h2 : truthy e.email && !truthy s.user_email <;>
    by_cases h3 : truthy e.company && !truthy s.company_name <;>
    simp [h1, h2, h3]

/-- Closed form of the explicit update endpoint: supplied fields always
overwrite and force the collected flags. -/
lemma uui_spec (u : UserInfoUpdate) (s : Session) (c : Context) :
    update_user_info u s c =
      ({ s with
          user_name := u.user_name.or s.user_name,
          user_email := u.user_email.or s.user_email,
          user_phone := u.user_phone.or s.user_phone,
          company_name := u.company_name.or s.company_name },
       { c with
          has_name := u.user_name.isSome || c.has_name,
          has_email := u.user_email.isSome || c.has_email,
          has_company := u.company_name.isSome || c.has_company }) := by
  unfold update_user_info
  cases u.user_name <;> cases u.user_email <;> cases u.user_phone <;>
    cases u.company_name <;> simp

lemma update_step_mem (c : Context) (i m : String) :
    (update_conversation_context c i m).current_step = c.current_step ∨
    (update_conversation_context c i m).current_step ∈
      (["info_collection", "product_discussion", "demo_booking"] : List String) := by
  rw [update_conversation_context_step]
  unfold step_next
  split_ifs <;> simp

lemma apply_context_updates_mem (l : List (String × String)) (c : Context)
    (h : c.current_step ∈
      (["greeting", "info_collection", "product_discussion", "demo_booking"] : List String)) :
    (apply_context_updates c l).current_step ∈
      (["greeting", "info_collection", "product_discussion", "demo_booking"] : List String) := by
  induction l generalizing c with
  | nil => exact h
  | cons x xs ih =>
    have h2 : (update_conversation_context c x.1 x.2).current_step ∈
        (["greeting", "info_collection", "product_discussion", "demo_booking"] : List String) := by
      rcases update_step_mem c x.1 x.2 with he | hm
      · rw [he]; exact h
      · simp only [List.mem_cons, List.mem_singleton] at hm ⊢
        tauto
    exact ih (update_conversation_context c x.1 x.2) h2

/-- C10: starting from a freshly created context (step greeting), any
sequence of per-message context updates keeps the current step within
greeting, info_collection, product_discussion and demo_booking; the steps
qualification and completed declared in CONVERSATION_STEPS are never
assigned on the chat path. -/
theorem chat_path_steps_reachable (un ue uc : Option String)
    (l : List (String × String)) :
    (apply_context_updates (create_session un ue uc).2 l).current_step ∈
      (["greeting", "info_collection", "product_discussion", "demo_booking"] : List String) ∧
    (apply_context_updates (create_session un ue uc).2 l).current_step ≠ "qualification" ∧
    (apply_context_updates (create_session un ue uc).2 l).current_step ≠ "completed" := by
  have hmem := apply_context_updates_mem l (create_session un ue uc).2 (by
    unfold create_session; simp)
  refine ⟨hmem, ?_, ?_⟩ <;>
    · simp only [List.mem_cons, List.not_mem_nil, or_false] at hmem
      rcases hmem with h | h | h | h <;> rw [h] <;> decide

lemma apply_op_qualified (st : Session × Context) (op : CoreOp)
    (h : st.1.is_qualified_lead = true) :
    (apply_op st op).1.is_qualified_lead = true := by
  cases op with
  | chat m e =>
    show (chat_step m e st.1 st.2).1.is_qualified_lead = true
    unfold chat_step increment_message_count
    rw [eaui_spec]
    dsimp only
    split_ifs <;> first | rfl | exact h
  | updateInfo u =>
    show (update_user_info u st.1 st.2).1.is_qualified_lead = true
    rw [uui_spec]
    exact h
  | reset => exact h

/-- C7: once a session has is_qualified_lead true, no sequence of further
core operations (chat messages, info updates, resets) ever makes it false
again. -/
theorem qualified_lead_monotone (st : Session × Context) (l : List CoreOp)
    (h : st.1.is_qualified_lead = true) :
    (apply_ops st l).1.is_qualified_lead = true := by
  induction l generalizing st with
  | nil => exact h
  | cons x xs ih => exact ih (apply_op st x) (apply_op_qualified st x h)

/-- C7 (witness): a concrete qualified session stays qualified through a
chat message, an explicit update and a reset. -/
theorem qualified_lead_monotone_witness :
    (apply_ops
      ({ user_name := some "Jane", user_email := some "jane@acme.com",
         user_phone := none, company_name := none, status := "qualified",
         is_qualified_lead := true, total_messages := 4 },
       { current_step := "product_discussion", has_name := true, has_email := true,
         has_company := false, preferred_products := ["ARGO"],
         asked_for_demo := false, asked_for_pricing := true })
      [CoreOp.chat "hello" { name := none, email := none, company := none },
       CoreOp.updateInfo { user_name := none, user_email := none,
                           user_phone := none, company_name := some "Acme" },
       CoreOp.reset]).1.is_qualified_lead = true :=
  qualified_lead_monotone _ _ rfl

lemma apply_op_status (st : Session × Context) (op : CoreOp) :
    (apply_op st op).1.status = st.1.status ∨
    (apply_op st op).1.status = "qualified" ∨
    (apply_op st op).1.status = "archived" := by
  cases op with
  | chat m e =>
    have hh : apply_op st (CoreOp.chat m e) = chat_step m e st.1 st.2 := rfl
    rw [hh]
    unfold chat_step increment_message_count
    rw [eaui_spec]
    dsimp only
    split_ifs <;> first | (left; rfl) | (right; left; rfl)
  | updateInfo u =>
    have hh : apply_op st (CoreOp.updateInfo u) = update_user_info u st.1 st.2 := rfl
    rw [hh, uui_spec]
    left; rfl
  | reset => right; right; rfl

/-- C5 (amended): from a freshly created session every sequence of core
operations keeps the status within active, qualified and archived (escalated
is never assigned); but archived is NOT terminal and qualified may be
reached from any status, as the counterexample shows. -/
theorem session_status_reachable (un ue uc : Option String) (l : List CoreOp) :
    (apply_ops (create_session un ue uc) l).1.status ∈
      (["active", "qualified", "archived"] : List String) := by
  have hgen : ∀ (l2 : List CoreOp) (st : Session × Context),
      st.1.status ∈ (["active", "qualified", "archived"] : List String) →
      (apply_ops st l2).1.status ∈ (["active", "qualified", "archived"] : List String) := by
    intro l2
    induction l2 with
    | nil => intro st hst; exact hst
    | cons x xs ih =>
      intro st hst
      refine ih (apply_op st x) ?_
      rcases apply_op_status st x with he | he | he <;> rw [he]
      · exact hst
      · simp
      · simp
  exact hgen l (create_session un ue uc) (by unfold create_session; simp)

/-- C5: the claim that archived is terminal is FALSE.  Counterexample: a chat
message on an archived session whose accumulated facts satisfy the
qualification predicate moves the status from archived to qualified. -/
theorem archived_status_not_terminal :
    (apply_op
      ({ user_name := some "Ana", user_email := some "ana@acme.com",
         user_phone := none, company_name := none, status := "archived",
         is_qualified_lead := false, total_messages := 5 },
       { current_step := "product_discussion", has_name := true, has_email := true,
         has_company := false, preferred_products := ["ARGO"],
         asked_for_demo := true, asked_for_pricing := false })
      (CoreOp.chat "ok" { name := none, email := none, company := none })).1.status
      = "qualified" := by
  decide

lemma eaui_inv (e : Extracted) (s : Session) (c : Context)
    (h1 : c.has_name = truthy s.user_name)
    (h2 : c.has_email = truthy s.user_email)
    (h3 : c.has_company = truthy s.company_name) :
    (extract_and_update_user_info e s c).2.has_name
        = truthy (extract_and_update_user_info e s c).1.user_name ∧
    (extract_and_update_user_info e s c).2.has_email
        = truthy (extract_and_update_user_info e s c).1.user_email ∧
    (extract_and_update_user_info e s c).2.has_company
        = truthy (extract_and_update_user_info e s c).1.company_name := by
  rw [eaui_spec]
  dsimp only
  refine ⟨?_, ?_, ?_⟩ <;> split_ifs <;> simp_all

/-- C2: the claim that has_name is true exactly when user_name is set (non
null) is FALSE.  Counterexample: a session created from a chat request that
supplies the blank (but present) user_name value has user_name non null
while has_name is seeded false. -/
theorem has_name_flag_mismatch_on_blank :
    (create_session (some "") none none).1.user_name ≠ none ∧
    (create_session (some "") none none).2.has_name = false := by
  decide

/-- C2 (amended): has_name tracks the TRUTHINESS of user_name (non null and
non empty), and likewise for email and company.  The correspondence is
established at session creation and preserved by every core operation,
provided any field supplied to the explicit update endpoint is non blank (a
blank supplied field breaks even this version, as it sets the flag while
storing a falsy value). -/
theorem collected_flags_match_fields :
    (∀ un ue uc : Option String,
      (create_session un ue uc).2.has_name = truthy (create_session un ue uc).1.user_name ∧
      (create_session un ue uc).2.has_email = truthy (create_session un ue uc).1.user_email ∧
      (create_session un ue uc).2.has_company = truthy (create_session un ue uc).1.company_name) ∧
    (∀ (st : Session × Context) (op : CoreOp),
      st.2.has_name = truthy st.1.user_name →
      st.2.has_email = truthy st.1.user_email →
      st.2.has_company = truthy st.1.company_name →
      (∀ u, op = CoreOp.updateInfo u →
        u.user_name ≠ some "" ∧ u.user_email ≠ some "" ∧ u.company_name ≠ some "") →
      ((apply_op st op).2.has_name = truthy (apply_op st op).1.user_name ∧
       (apply_op st op).2.has_email = truthy (apply_op st op).1.user_email ∧
       (apply_op st op).2.has_company = truthy (apply_op st op).1.company_name)) := by
  constructor
  · intro un ue uc; exact ⟨rfl, rfl, rfl⟩
  · intro st op h1 h2 h3 hu
    cases op with
    | chat m e =>
      have he := eaui_inv e st.1 st.2 h1 h2 h3
      have hh : apply_op st (CoreOp.chat m e) = chat_step m e st.1 st.2 := rfl
      rw [hh]
      unfold chat_step increment_message_count
      dsimp only
      obtain ⟨hu1, hu2, hu3⟩ :=
        updated_has (extract_and_update_user_info e st.1 st.2).2 (detect_intent m).1 m
      split_ifs <;>
        exact ⟨by rw [hu1]; exact he.1, by rw [hu2]; exact he.2.1,
               by rw [hu3]; exact he.2.2⟩
    | updateInfo u =>
      obtain ⟨hb1, hb2, hb3⟩ := hu u rfl
      have hh : apply_op st (CoreOp.updateInfo u) = update_user_info u st.1 st.2 := rfl
      rw [hh, uui_spec]
      dsimp only
      refine ⟨?_, ?_, ?_⟩
      · cases hc : u.user_name with
        | none => simpa [hc] using h1
        | some v =>
          have hv : v ≠ "" := by intro hv0; exact hb1 (by rw [hc, hv0])
          simp [truthy, Option.or, hv]
      · cases hc : u.user_email with
        | none => simpa [hc] using h2
        | some v =>
          have hv : v ≠ "" := by intro hv0; exact hb2 (by rw [hc, hv0])
          simp [truthy, Option.or, hv]
      · cases hc : u.company_name with
        | none => simpa [hc] using h3
        | some v =>
          have hv : v ≠ "" := by intro hv0; exact hb3 (by rw [hc, hv0])
          simp [truthy, Option.or, hv]
    | reset => exact ⟨h1, h2, h3⟩

/-- C2 (witness for the amended theorem): a concrete non-blank update keeps
the email flag aligned with the stored email. -/
theorem collected_flags_match_fields_witness :
    (apply_op (create_session (some "Jane") none none)
        (CoreOp.updateInfo { user_name := none, user_email := some "jane@acme.com",
                             user_phone := none, company_name := none })).2.has_email
      = truthy (apply_op (create_session (some "Jane") none none)
        (CoreOp.updateInfo { user_name := none, user_email := some "jane@acme.com",
                             user_phone := none, company_name := none })).1.user_email :=
  (collected_flags_match_fields.2 (create_session (some "Jane") none none) _
    (by decide) (by decide) (by decide)
    (by intro u hu0; cases hu0; exact ⟨by decide, by decide, by decide⟩)).2.1

/-- C6: on the chat path, once a session field holds a truthy value, no
later extraction changes it (first-write-wins), while the explicit
update-info endpoint always overwrites any supplied field. -/
theorem first_write_wins_and_update_overwrites :
    (∀ (e : Extracted) (s : Session) (c : Context),
      (truthy s.user_name = true →
        (extract_and_update_user_info e s c).1.user_name = s.user_name) ∧
      (truthy s.user_email = true →
        (extract_and_update_user_info e s c).1.user_email = s.user_email) ∧
      (truthy s.company_name = true →
        (extract_and_update_user_info e s c).1.company_name = s.company_name)) ∧
    (∀ (u : UserInfoUpdate) (s : Session) (c : Context) (v : String),
      (u.user_name = some v → (update_user_info u s c).1.user_name = some v) ∧
      (u.user_email = some v → (update_user_info u s c).1.user_email = some v) ∧
      (u.company_name = some v → (update_user_info u s c).1.company_name = some v)) := by
  constructor
  · intro e s c
    rw [eaui_spec]
    dsimp only
    refine ⟨?_, ?_, ?_⟩ <;> intro h <;> simp [h]
  · intro u s c v
    rw [uui_spec]
    dsimp only
    refine ⟨?_, ?_, ?_⟩ <;> intro h <;> simp [h, Option.or]

/-- C6 (witness): a stored name survives an extraction offering a different
name, and the update endpoint replaces it. -/
theorem first_write_wins_and_update_overwrites_witness :
    (extract_and_update_user_info
        { name := some "Mallory", email := none, company := none }
        { user_name := some "Jane", user_email := none, user_phone := none,
          company_name := none, status := "active", is_qualified_lead := false,
          total_messages := 2 }
        { current_step := "greeting", has_name := true, has_email := false,
          has_company := false, preferred_products := [], asked_for_demo := false,
          asked_for_pricing := false }).1.user_name = some "Jane" ∧
    (update_user_info
        { user_name := some "Mallory", user_email := none, user_phone := none,
          company_name := none }
        { user_name := some "Jane", user_email := none, user_phone := none,
          company_name := none, status := "active", is_qualified_lead := false,
          total_messages := 2 }
        { current_step := "greeting", has_name := true, has_email := false,
          has_company := false, preferred_products := [], asked_for_demo := false,
          asked_for_pricing := false }).1.user_name = some "Mallory" :=
  ⟨(first_write_wins_and_update_overwrites.1 _ _ _).1 (by decide),
   (first_write_wins_and_update_overwrites.2 _ _ _ "Mallory").1 rfl⟩

lemma getD1_append (a b : String) (h : 1 < a.data.length) :
    (a ++ b).data.getD 1 ' ' = a.data.getD 1 ' ' := by
  rw [String.data_append]
  exact List.getD_append a.data b.data ' ' 1 h

lemma wrapped_ne_demo (a b : String) (ha : 1 < a.data.length)
    (htag : a.data.getD 1 ' ' ≠ '🎯') :
    ((a ++ b) ++ "]").data.getD 1 ' ' ≠ '🎯' := by
  intro h
  have h2 : 1 < (a ++ b).data.length := by
    rw [String.data_append, List.length_append]
    omega
  rw [getD1_append _ _ h2, getD1_append _ _ ha] at h
  exact htag h

lemma mem_ite_singleton {P : Prop} [Decidable P] (y x : String)
    (hx : x ∈ (if P then ([] : List String) else [y])) : x = y := by
  by_cases h : P
  · rw [if_pos h] at hx
    simp at hx
  · rw [if_neg h] at hx
    exact List.mem_singleton.mp hx

lemma mem_ite_pair {P : Prop} [Decidable P] (y z x : String)
    (hx : x ∈ (if P then [y] else [z])) : x = y ∨ x = z := by
  by_cases h : P
  · rw [if_pos h] at hx
    exact Or.inl (List.mem_singleton.mp hx)
  · rw [if_neg h] at hx
    exact Or.inr (List.mem_singleton.mp hx)

/-- Every line of the enriched prompt other than the two demo-instruction
lines carries a marker other than the demo emoji at character position 1. -/
lemma mem_parts_tag (s : Session) (c : Context) (x : String)
    (hx : x ∈ known_info_line s ++ missing_info_line c ++ interests_line c) :
    x.data.getD 1 ' ' ≠ '🎯' := by
  intro htag
  simp only [List.mem_append] at hx
  rcases hx with (hk | hm) | hi
  · unfold known_info_line at hk
    rw [mem_ite_singleton _ _ hk] at htag
    exact wrapped_ne_demo _ _ (by decide) (by decide) htag
  · unfold missing_info_line at hm
    rcases mem_ite_pair _ _ _ hm with h | h
    · rw [h] at htag
      exact absurd htag (by decide)
    · rw [h] at htag
      exact wrapped_ne_demo _ _ (by decide) (by decide) htag
  · unfold interests_line at hi
    rw [mem_ite_singleton _ _ hi] at htag
    exact wrapped_ne_demo _ _ (by decide) (by decide) htag

/-- C3: the claim that the demo-link instruction is emitted exactly when the
missing-info list is empty is FALSE.  Counterexample: a session that knows
only the company (name and email still missing, so missing-info is
nonempty) with a demo requested still gets the immediate-link instruction,
because the code branches on the company field alone. -/
theorem demo_link_not_missing_driven :
    get_missing_info
      { current_step := "info_collection", has_name := false, has_email := false,
        has_company := true, preferred_products := [], asked_for_demo := true,
        asked_for_pricing := false } ≠ [] ∧
    demo_link_line ∈ build_context_parts
      { user_name := none, user_email := none, user_phone := none,
        company_name := some "Acme", status := "active",
        is_qualified_lead := false, total_messages := 1 }
      { current_step := "info_collection", has_name := false, has_email := false,
        has_company := true, preferred_products := [], asked_for_demo := true,
        asked_for_pricing := false } := by
  decide

/-- C3 (amended): when a demo was requested, the enriched prompt carries the
immediate-link instruction exactly when the session company field is truthy,
and the ask-for-company instruction exactly otherwise; the branch depends on
the company field alone, not on the missing-info list. -/
theorem demo_link_iff_company (s : Session) (c : Context)
    (hd : c.asked_for_demo = true) :
    ((demo_link_line ∈ build_context_parts s c) ↔ truthy s.company_name = true) ∧
    ((demo_need_company_line ∈ build_context_parts s c) ↔ truthy s.company_name = false) := by
  unfold build_context_parts demo_line
  rw [hd]
  by_cases hc : truthy s.company_name
  · rw [if_pos rfl, if_pos hc]
    constructor
    · simp only [hc, iff_true]
      simp [List.mem_append]
    · simp only [hc, Bool.true_eq_false, iff_false]
      intro hmem
      rw [List.mem_append] at hmem
      rcases hmem with hmem | hmem
      · exact mem_parts_tag s c _ hmem (by decide)
      · rw [List.mem_singleton] at hmem
        exact absurd hmem (by decide)
  · rw [if_pos rfl, if_neg hc]
    simp only [Bool.not_eq_true] at hc
    constructor
    · simp only [hc, Bool.false_eq_true, iff_false]
      intro hmem
      rw [List.mem_append] at hmem
      rcases hmem with hmem | hmem
      · exact mem_parts_tag s c _ hmem (by decide)
      · rw [List.mem_singleton] at hmem
        exact absurd hmem (by decide)
    · simp only [hc, iff_true]
      simp [List.mem_append]

/-- C3 (witness for the amended theorem): with a demo requested and the
company known, the link line is in the prompt parts and the ask-for-company
line is not. -/
theorem demo_link_iff_company_witness :
    ((demo_link_line ∈ build_context_parts
        { user_name := some "Jane", user_email := some "jane@acme.com",
          user_phone := none, company_name := some "Acme", status := "active",
          is_qualified_lead := false, total_messages := 3 }
        { current_step := "demo_booking", has_name := true, has_email := true,
          has_company := true, preferred_products := ["ARGO"],
          asked_for_demo := true, asked_for_pricing := false }) ↔
      truthy (some "Acme") = true) ∧
    ((demo_need_company_line ∈ build_context_parts
        { user_name := some "Jane", user_email := some "jane@acme.com",
          user_phone := none, company_name := some "Acme", status := "active",
          is_qualified_lead := false, total_messages := 3 }
        { current_step := "demo_booking", has_name := true, has_email := true,
          has_company := true, preferred_products := ["ARGO"],
          asked_for_demo := true, asked_for_pricing := false }) ↔
      truthy (some "Acme") = false) :=
  demo_link_iff_company _ _ rfl

lemma hfb_eq (msgs : List Nat) :
    history_for_backend msgs = (msgs.dropLast).take 9 := by
  unfold history_for_backend conversation_history
  rw [List.dropLast_eq_take, List.take_take, List.dropLast_eq_take, List.take_take,
    List.length_take]
  congr 1
  omega

/-- C4: the claim that the history handed to the backend is the MOST RECENT
ten messages (minus the live turn) is FALSE.  Counterexample: with eleven
messages the code hands over the nine OLDEST ones; message 1 is included
although it is not among the ten most recent, and message 10 is dropped
although it is. -/
theorem history_not_most_recent :
    history_for_backend [1, 2, 3, 4, 5, 6, 7, 8, 9, 10, 11] ≠
      spec_recent_history [1, 2, 3, 4, 5, 6, 7, 8, 9, 10, 11] ∧
    1 ∈ history_for_backend [1, 2, 3, 4, 5, 6, 7, 8, 9, 10, 11] ∧
    10 ∉ history_for_backend [1, 2, 3, 4, 5, 6, 7, 8, 9, 10, 11] ∧
    10 ∈ spec_recent_history [1, 2, 3, 4, 5, 6, 7, 8, 9, 10, 11] := by
  decide

/-- C4 (amended): the history handed to the backend is the chronologically
FIRST ten session messages with the last of those removed.  It is always
disjoint from the just-created user message (the final entry), it preserves
chronological order, and it matches the most-recent-capped history of the
spec exactly when the session holds at most ten messages. -/
theorem history_disjoint_and_capped (msgs : List Nat) (hnd : msgs.Nodup)
    (hne : msgs ≠ []) :
    msgs.getLast hne ∉ history_for_backend msgs ∧
    List.Sublist (history_for_backend msgs) msgs ∧
    (msgs.length ≤ 10 → history_for_backend msgs = spec_recent_history msgs) := by
  refine ⟨?_, ?_, ?_⟩
  · rw [hfb_eq]
    intro hmem
    have hmem2 : msgs.getLast hne ∈ msgs.dropLast := List.mem_of_mem_take hmem
    have hsplit := List.dropLast_append_getLast hne
    have hnd2 : (msgs.dropLast ++ [msgs.getLast hne]).Nodup := by
      rw [hsplit]; exact hnd
    rw [List.nodup_append] at hnd2
    exact hnd2.2.2 hmem2 (List.mem_singleton.mpr rfl)
  · unfold history_for_backend conversation_history
    exact (List.dropLast_sublist _).trans (List.take_sublist _ _)
  · intro hlen
    unfold history_for_backend conversation_history spec_recent_history
    rw [List.take_of_length_le hlen]
    have hz : msgs.dropLast.length - 10 = 0 := by
      rw [List.length_dropLast]; omega
    rw [hz, List.drop_zero]

/-- C4 (witness for the amended theorem): on a three-message session the
last message is excluded, order is preserved, and the capped history agrees
with the spec reading. -/
theorem history_disjoint_and_capped_witness :
    ([1, 2, 3] : List Nat).getLast (by decide) ∉ history_for_backend [1, 2, 3] ∧
    List.Sublist (history_for_backend [1, 2, 3]) [1, 2, 3] ∧
    (([1, 2, 3] : List Nat).length ≤ 10 →
      history_for_backend [1, 2, 3] = spec_recent_history [1, 2, 3]) :=
  history_disjoint_and_capped [1, 2, 3] (by decide) (by decide)

lemma py_max_snd_ge (l : List (String × Nat)) :
    ∀ acc : String × Nat, ∀ y ∈ acc :: l, y.2 ≤ (py_max acc l).2 := by
  induction l with
  | nil =>
    intro acc y hy
    rw [List.mem_singleton] at hy
    subst hy
    exact Nat.le_refl _
  | cons x xs ih =>
    intro acc y hy
    show y.2 ≤ (py_max (if acc.2 < x.2 then x else acc) xs).2
    have h1 : acc.2 ≤ (if acc.2 < x.2 then x else acc).2 := by
      split_ifs with h
      · exact Nat.le_of_lt h
      · exact Nat.le_refl _
    have h2 : x.2 ≤ (if acc.2 < x.2 then x else acc).2 := by
      split_ifs with h
      · exact Nat.le_refl _
      · exact Nat.le_of_not_lt h
    have hmax := ih (if acc.2 < x.2 then x else acc)
    rcases List.mem_cons.mp hy with h | h
    · subst h
      exact Nat.le_trans h1 (hmax _ (List.mem_cons_self _ _))
    · rcases List.mem_cons.mp h with h | h
      · subst h
        exact Nat.le_trans h2 (hmax _ (List.mem_cons_self _ _))
      · exact hmax y (List.mem_cons_of_mem _ h)

lemma py_max_mem (l : List (String × Nat)) :
    ∀ acc, py_max acc l ∈ acc :: l := by
  induction l with
  | nil =>
    intro acc
    exact List.mem_singleton.mpr rfl
  | cons x xs ih =>
    intro acc
    show py_max (if acc.2 < x.2 then x else acc) xs ∈ acc :: x :: xs
    rcases List.mem_cons.mp (ih (if acc.2 < x.2 then x else acc)) with h | h
    · rw [h]
      split_ifs
      · exact List.mem_cons_of_mem _ (List.mem_cons_self _ _)
      · exact List.mem_cons_self _ _
    · exact List.mem_cons_of_mem _ (List.mem_cons_of_mem _ h)

/-- Python max with a strict comparison keeps the FIRST maximal element:
the result is the first list entry whose score reaches the maximum. -/
lemma py_max_find (l : List (String × Nat)) :
    ∀ acc, (acc :: l).find? (fun y => decide ((py_max acc l).2 ≤ y.2))
      = some (py_max acc l) := by
  induction l with
  | nil =>
    intro acc
    exact List.find?_cons_of_pos _ (by simp [py_max])
  | cons x xs ih =>
    intro acc
    by_cases hcase : acc.2 < x.2
    · have hred : py_max acc (x :: xs) = py_max x xs := by
        show py_max (if acc.2 < x.2 then x else acc) xs = _
        rw [if_pos hcase]
      rw [hred]
      have hgt : ¬ ((py_max x xs).2 ≤ acc.2) := by
        have hx : x.2 ≤ (py_max x xs).2 := py_max_snd_ge xs x x (List.mem_cons_self _ _)
        omega
      rw [List.find?_cons_of_neg _ (by simpa using hgt)]
      exact ih x
    · have hred : py_max acc (x :: xs) = py_max acc xs := by
        show py_max (if acc.2 < x.2 then x else acc) xs = _
        rw [if_neg hcase]
      rw [hred]
      have hih := ih acc
      by_cases hacc : (py_max acc xs).2 ≤ acc.2
      · have h1 : List.find? (fun y => decide ((py_max acc xs).2 ≤ y.2)) (acc :: xs)
            = some acc := List.find?_cons_of_pos _ (by simpa using hacc)
        have h2 : py_max acc xs = acc := by
          rw [hih] at h1
          exact Option.some.inj h1
        rw [h2]
        exact List.find?_cons_of_pos _ (by simp)
      · have hxle : x.2 ≤ acc.2 := Nat.le_of_not_lt hcase
        have hpx : ¬ ((py_max acc xs).2 ≤ x.2) := by omega
        rw [List.find?_cons_of_neg _ (by simpa using hacc),
            List.find?_cons_of_neg _ (by simpa using hpx)]
        rw [List.find?_cons_of_neg _ (by simpa using hacc)] at hih
        exact hih

lemma foldr_max_ge (l : List (String × Nat)) :
    ∀ y ∈ l, y.2 ≤ l.foldr (fun x r => max x.2 r) 0 := by
  induction l with
  | nil =>
    intro y hy
    simp at hy
  | cons x xs ih =>
    intro y hy
    rcases List.mem_cons.mp hy with h | h
    · subst h
      exact Nat.le_max_left _ _
    · exact Nat.le_trans (ih y h) (Nat.le_max_right _ _)

lemma foldr_max_attained (l : List (String × Nat))
    (h : 0 < l.foldr (fun x r => max x.2 r) 0) :
    ∃ y ∈ l, y.2 = l.foldr (fun x r => max x.2 r) 0 := by
  induction l with
  | nil => simp at h
  | cons x xs ih =>
    by_cases hc : xs.foldr (fun x r => max x.2 r) 0 ≤ x.2
    · refine ⟨x, List.mem_cons_self _ _, ?_⟩
      show x.2 = max x.2 _
      rw [Nat.max_eq_left hc]
    · have hlt : x.2 < xs.foldr (fun x r => max x.2 r) 0 := Nat.lt_of_not_le hc
      obtain ⟨y, hy, he⟩ := ih (by omega)
      refine ⟨y, List.mem_cons_of_mem _ hy, ?_⟩
      show y.2 = max x.2 _
      rw [Nat.max_eq_right (Nat.le_of_lt hlt)]
      exact he

lemma find?_filter_eq {α : Type} (l : List α) (p q : α → Bool)
    (h : ∀ y ∈ l, q y = true → p y = true) :
    (l.filter p).find? q = l.find? q := by
  induction l with
  | nil => rfl
  | cons x xs ih =>
    by_cases hp : p x = true
    · rw [List.filter_cons_of_pos hp]
      by_cases hq : q x = true
      · rw [List.find?_cons_of_pos _ hq, List.find?_cons_of_pos _ hq]
      · have hq2 : q x = false := by
          cases hqx : q x
          · rfl
          · exact absurd hqx hq
        rw [List.find?_cons_of_neg _ (by simp [hq2]), List.find?_cons_of_neg _ (by simp [hq2])]
        exact ih (fun y hy => h y (List.mem_cons_of_mem _ hy))
    · have hq2 : q x = false := by
        cases hqx : q x
        · rfl
        · exact absurd (h x (List.mem_cons_self _ _) hqx) hp
      rw [List.filter_cons_of_neg (by simp [hp])]
      rw [List.find?_cons_of_neg _ (by simp [hq2])]
      exact ih (fun y hy => h y (List.mem_cons_of_mem _ hy))

lemma find?_congr_pred {α : Type} (l : List α) (p q : α → Bool)
    (h : ∀ y ∈ l, p y = q y) :
    l.find? p = l.find? q := by
  induction l with
  | nil => rfl
  | cons x xs ih =>
    have hx := h x (List.mem_cons_self _ _)
    cases hpx : p x
    · have hqx : q x = false := hx ▸ hpx
      rw [List.find?_cons_of_neg _ (by simp [hpx]), List.find?_cons_of_neg _ (by simp [hqx])]
      exact ih (fun y hy => h y (List.mem_cons_of_mem _ hy))
    · have hqx : q x = true := hx ▸ hpx
      rw [List.find?_cons_of_pos _ hpx, List.find?_cons_of_pos _ hqx]

/-- C9: whenever at least one intent matches (and in particular whenever two
or more intents attain the maximal pattern-match score), detect_intent
returns the intent that appears FIRST in the declaration order of
INTENT_PATTERNS among those attaining the maximal score, with confidence
min(score / 3, 1). -/
theorem detect_intent_tie_break (msg : String) (i : String × Nat)
    (hpos : 0 < max_score msg)
    (htie : 2 ≤ ((declared_scores msg).filter
      (fun x => decide (x.2 = max_score msg))).length)
    (hfirst : (declared_scores msg).find? (fun x => decide (x.2 = max_score msg))
      = some i) :
    detect_intent msg = (i.1, min ((max_score msg : ℚ) / 3) 1) := by
  have hms : max_score msg = (declared_scores msg).foldr (fun x r => max x.2 r) 0 := rfl
  obtain ⟨y, hymem, hyval⟩ := foldr_max_attained (declared_scores msg) (hms ▸ hpos)
  cases hfl : (declared_scores msg).filter (fun x => decide (0 < x.2)) with
  | nil =>
    exfalso
    have hy : y ∈ (declared_scores msg).filter (fun x => decide (0 < x.2)) := by
      rw [List.mem_filter]
      exact ⟨hymem, decide_eq_true (by rw [hyval, ← hms]; exact hpos)⟩
    rw [hfl] at hy
    simp at hy
  | cons s rest =>
    have hdet : detect_intent msg
        = ((py_max s rest).1, min (((py_max s rest).2 : ℚ) / 3) 1) := by
      unfold detect_intent
      rw [hfl]
    have hr_mem_d : py_max s rest ∈ declared_scores msg := by
      have hf : py_max s rest ∈ (declared_scores msg).filter (fun x => decide (0 < x.2)) := by
        rw [hfl]
        exact py_max_mem rest s
      exact (List.mem_filter.mp hf).1
    have hr_le : (py_max s rest).2 ≤ max_score msg :=
      hms ▸ foldr_max_ge (declared_scores msg) _ hr_mem_d
    have hy_in_f : y ∈ s :: rest := by
      rw [← hfl, List.mem_filter]
      exact ⟨hymem, decide_eq_true (by rw [hyval, ← hms]; exact hpos)⟩
    have hr_ge : max_score msg ≤ (py_max s rest).2 := by
      have hy2 := py_max_snd_ge rest s y hy_in_f
      rw [hyval, ← hms] at hy2
      exact hy2
    have hr_val : (py_max s rest).2 = max_score msg := Nat.le_antisymm hr_le hr_ge
    have h2 : ((declared_scores msg).filter (fun x => decide (0 < x.2))).find?
        (fun z => decide ((py_max s rest).2 ≤ z.2)) = some (py_max s rest) := by
      rw [hfl]
      exact py_max_find rest s
    rw [find?_filter_eq (declared_scores msg) _ _ (by
      intro z hz hq
      have hle := of_decide_eq_true hq
      rw [hr_val] at hle
      exact decide_eq_true (by omega))] at h2
    have h4 : (declared_scores msg).find? (fun x => decide (x.2 = max_score msg))
        = some (py_max s rest) := by
      rw [find?_congr_pred (declared_scores msg)
        (fun x => decide (x.2 = max_score msg))
        (fun z => decide ((py_max s rest).2 ≤ z.2)) ?_]
      · exact h2
      · intro z hz
        have hzle : z.2 ≤ max_score msg :=
          hms ▸ foldr_max_ge (declared_scores msg) z hz
        rw [hr_val, decide_eq_decide]
        omega
    rw [h4] at hfirst
    have hi : i = py_max s rest := (Option.some.inj hfirst).symm
    rw [hdet, hr_val, hi]

/-- C9 (witness): on the message "demo price" the intents demo_request and
pricing_inquiry tie at score 1 and the first-declared demo_request wins with
confidence 1/3. -/
theorem detect_intent_tie_break_witness :
    0 < max_score "demo price" ∧
    2 ≤ ((declared_scores "demo price").filter
      (fun x => decide (x.2 = max_score "demo price"))).length ∧
    detect_intent "demo price" = ("demo_request", min ((max_score "demo price" : ℚ) / 3) 1) :=
  ⟨by decide, by decide,
    detect_intent_tie_break "demo price" ("demo_request", 1)
      (by decide) (by decide) (by decide)⟩
